import Mathlib

/-!
Shallow embedding of `src/main.py` (a system-health sampling loop storing
rows in a SQLite table) and proofs of the specified properties.

Modelling conventions:
* SQLite values are modelled with `String` for TEXT columns and `Rat` for
  REAL columns (no claim depends on floating-point rounding, only on which
  values are stored and returned).
* The database file is a `DB` record: the list of table names in the file,
  the column list of the `system_log` table, the `AUTOINCREMENT` sequence
  counter (`nextId`, the next rowid SQLite will hand out; with
  `AUTOINCREMENT` it never decreases, even if rows are deleted), and the
  stored rows in insertion order.
* Python exceptions are modelled by `PyError`; a `try/except` block becomes
  a `match` on an `Except` value.
* The outside world (OS metrics, the ping subprocess, interrupts, disk
  writability) is supplied through explicit oracle parameters.
-/

/-- A Python exception relevant to `main.py`. -/
inductive PyError where
  | calledProcessError (code : Nat)
  | timeoutExpired
  | fileNotFoundError
  | keyboardInterrupt
  | operationalError
deriving Repr, DecidableEq

/-- The observable outcome of launching the external `ping` utility once:
either the process completed within the timeout with some exit code, or the
timeout expired first, or the process could not be launched at all
(utility absent). -/
inductive ProbeOutcome where
  | exitCode (c : Nat)
  | timeout
  | launchFailure
deriving Repr, DecidableEq

/-- Model of `subprocess.run(cmd, timeout=..., check=True)`: raises
`CalledProcessError` on a non-zero exit code (because of `check=True`),
`TimeoutExpired` on timeout, `FileNotFoundError` when the utility is
absent; returns normally only on exit code 0 within the timeout. -/
def subprocess_run (o : ProbeOutcome) : Except PyError Unit :=
  match o with
  | .exitCode 0 => .ok ()
  | .exitCode c => .error (.calledProcessError c)
  | .timeout => .error .timeoutExpired
  | .launchFailure => .error .fileNotFoundError

def PING_HOST : String := "google.com"
def SAMPLES : Nat := 5
def INTERVAL_SEC : Nat := 10
def TABLE_NAME : String := "system_log"

/-- The command list `["ping", count_flag, "1", host]` built in
`ping_status`: Windows uses `-n`, Unix-like systems use `-c`. -/
def ping_cmd (system host : String) : List String :=
  ["ping", (if system = "windows" then "-n" else "-c"), "1", host]

/-- The list of subprocess launches one call of `ping_status` performs.
The body of `ping_status` contains a single unconditional
`subprocess.run` and no loop, so exactly one command is launched per call
regardless of the outcome. -/
def ping_launches (system host : String) (_o : ProbeOutcome) : List (List String) :=
  [ping_cmd system host]

/-- The body of the `try:` block in `ping_status`: run the utility once and
return `"UP"`; any of the three failure modes escapes as an exception. -/
def ping_status_body (o : ProbeOutcome) : Except PyError String :=
  match subprocess_run o with
  | .ok _ => .ok "UP"
  | .error e => .error e

/-- Model of `ping_status`: the `except Exception` clause absorbs every exception and
returns `"DOWN"`, so the function is total (never raises to the caller). -/
def ping_status (o : ProbeOutcome) : String :=
  match ping_status_body o with
  | .ok s => s
  | .error _ => "DOWN"

/-- The OS-reported quantities `get_system_info` reads: the wall-clock
timestamp string and the three utilization percentages from `psutil`. -/
structure Metrics where
  now : String
  cpu : Rat
  memory : Rat
  disk : Rat
deriving Repr, DecidableEq

/-- The 5-tuple `(ts, cpu, memory, disk, pstat)` returned by
`get_system_info`. All five fields are plain (non-optional) values: no
code path can leave one unset. -/
structure Entry where
  timestamp : String
  cpu : Rat
  memory : Rat
  disk : Rat
  pstat : String
deriving Repr, DecidableEq

/-- Model of `get_system_info()`: assemble timestamp, cpu%, memory%, disk%, and the
ping status into one tuple. The metrics and the probe outcome are oracle
inputs. -/
def get_system_info (m : Metrics) (o : ProbeOutcome) : Entry :=
  ⟨m.now, m.cpu, m.memory, m.disk, ping_status o⟩

/-- One row of the `system_log` table. Every column is declared `NOT NULL`
in the schema and the `INSERT` supplies all five data values, so each field
is a plain value, never a null. -/
structure Row where
  id : Nat
  timestamp : String
  cpu : Rat
  memory : Rat
  disk : Rat
  pstat : String
deriving Repr, DecidableEq

/-- The columns of the `system_log` table created by `init_db`. -/
def tableColumns : List String :=
  ["id", "timestamp", "cpu", "memory", "disk", "ping_status"]

/-- The state of the SQLite database file `log.db`.
`nextId` models the `AUTOINCREMENT` sequence: the rowid the next insert
will receive. SQLite guarantees it exceeds every rowid ever assigned to
this table, so deleting rows never makes an id available again. -/
structure DB where
  tables : List String
  schema : List String
  nextId : Nat
  rows : List Row
deriving Repr, DecidableEq

/-- A database file with no tables yet; `AUTOINCREMENT` ids start at 1. -/
def emptyDB : DB := ⟨[], [], 1, []⟩

/-- Model of `init_db()`: `CREATE TABLE IF NOT EXISTS system_log (...)` — creates
the six-column table when absent and does nothing at all when present. -/
def init_db (db : DB) : DB :=
  if TABLE_NAME ∈ db.tables then db
  else { db with tables := db.tables ++ [TABLE_NAME], schema := tableColumns }

/-- The row a SQLite `INSERT` of `e` produces when the sequence counter
stands at `id`. -/
def rowOf (id : Nat) (e : Entry) : Row :=
  ⟨id, e.timestamp, e.cpu, e.memory, e.disk, e.pstat⟩

/-- Model of `insert_log(entry)`: append one row; the id comes from the
`AUTOINCREMENT` sequence, which then advances. Committed before
returning. -/
def insert_log (db : DB) (e : Entry) : DB :=
  { db with nextId := db.nextId + 1, rows := db.rows ++ [rowOf db.nextId e] }

/-- Comparison used by `ORDER BY id DESC`: later-inserted (larger-id) rows first. -/
def rowIdGe (a b : Row) : Prop := b.id ≤ a.id

instance : DecidableRel rowIdGe := fun a b => inferInstanceAs (Decidable (b.id ≤ a.id))

instance : IsTotal Row rowIdGe := ⟨fun a b => (Nat.le_total a.id b.id).symm⟩

instance : IsTrans Row rowIdGe := ⟨fun _ _ _ h1 h2 => le_trans h2 h1⟩

/-- SQLite `LIMIT k` semantics: `k = 0` yields no rows, positive `k` caps
the row count, and a **negative** `k` means "no upper bound" (the SQLite
documentation: a negative LIMIT expression removes the limit). -/
def sqlLimit (k : Int) (rows : List Row) : List Row :=
  if k < 0 then rows else rows.take k.toNat

/-- The rows `show_last_logs(limit)` fetches:
`SELECT ... FROM system_log ORDER BY id DESC LIMIT ?`. -/
def show_last_logs (db : DB) (limit : Int) : List Row :=
  sqlLimit limit (List.insertionSort rowIdGe db.rows)

/-- The rows `show_failed_pings()` fetches:
`SELECT ... FROM system_log WHERE ping_status = 'DOWN' ORDER BY id DESC`. -/
def show_failed_pings (db : DB) : List Row :=
  List.insertionSort rowIdGe (db.rows.filter (fun r => r.pstat == "DOWN"))

/-- Invariant of every reachable database state: row ids strictly increase
in insertion order and sit strictly below the sequence counter. -/
def WellFormed (db : DB) : Prop :=
  db.rows.Pairwise (fun a b => a.id < b.id) ∧ ∀ r ∈ db.rows, r.id < db.nextId

/-- An observable step of a run: sampling, inserting, the progress print,
the inter-sample sleep, the two reports, and the interrupt notice. -/
inductive Event where
  | sampled (e : Entry)
  | inserted (e : Entry)
  | progress (i n : Nat) (e : Entry)
  | slept (sec : Nat)
  | reportRecent (limit : Int) (rows : List Row)
  | reportFailed (rows : List Row)
  | notice
deriving Repr, DecidableEq

/-- Where a `KeyboardInterrupt` can arrive: during the blocking calls of
tick `i`'s `get_system_info()` (the CPU sampling window or the probe,
i.e. before tick `i`'s insert), or during the `time.sleep` that follows
tick `i`. Ticks are 0-indexed as in `for i in range(SAMPLES)`. -/
inductive IntrPoint where
  | duringSample (i : Nat)
  | duringSleep (i : Nat)
deriving Repr, DecidableEq

/-- The `for i in range(SAMPLES)` loop body of `main`, over an explicit
list of loop indices. Oracles: `menv`/`penv` give each tick's OS metrics
and probe outcome, `intr` says where (if anywhere) a `KeyboardInterrupt`
arrives, `insertOk i` says whether the database file is writable at tick
`i` (`false` makes `insert_log` raise `sqlite3.OperationalError`).
Returns the database state, the event trace, and the escaping exception,
if any. -/
def loopIter (samples interval : Nat) (menv : Nat → Metrics) (penv : Nat → ProbeOutcome)
    (intr : Option IntrPoint) (insertOk : Nat → Bool) :
    List Nat → DB → DB × List Event × Option PyError
  | [], db => (db, [], none)
  | i :: rest, db =>
    if intr = some (.duringSample i) then
      (db, [], some .keyboardInterrupt)
    else
      let e := get_system_info (menv i) (penv i)
      if insertOk i then
        let db1 := insert_log db e
        let evs := [Event.sampled e, Event.inserted e, Event.progress (i + 1) samples e]
        if i < samples - 1 then
          if intr = some (.duringSleep i) then
            (db1, evs, some .keyboardInterrupt)
          else
            let r := loopIter samples interval menv penv intr insertOk rest db1
            (r.1, evs ++ Event.slept interval :: r.2.1, r.2.2)
        else
          let r := loopIter samples interval menv penv intr insertOk rest db1
          (r.1, evs ++ r.2.1, r.2.2)
      else
        (db, [Event.sampled e], some .operationalError)

/-- Model of `main()`: `init_db`, then the sampling loop over `range(samples)`,
then — only if the loop finished without an exception —
`show_last_logs(limit=5)`. The `show_failed_pings()` call is commented
out in the source and therefore absent here. -/
def python_main (samples interval : Nat) (menv : Nat → Metrics) (penv : Nat → ProbeOutcome)
    (intr : Option IntrPoint) (insertOk : Nat → Bool) (db : DB) :
    DB × List Event × Option PyError :=
  let db0 := init_db db
  let r := loopIter samples interval menv penv intr insertOk (List.range samples) db0
  match r.2.2 with
  | none => (r.1, r.2.1 ++ [Event.reportRecent 5 (show_last_logs r.1 5)], none)
  | some e => (r.1, r.2.1, some e)

/-- How the process ends: normally, or killed by an uncaught exception. -/
inductive ExitStatus where
  | clean
  | aborted (e : PyError)
deriving Repr, DecidableEq

/-- The `if __name__ == "__main__"` block: run `main()`; a
`KeyboardInterrupt` is caught, a notice is printed and the process exits
cleanly; every other exception propagates and aborts the process. -/
def entry_point (samples interval : Nat) (menv : Nat → Metrics) (penv : Nat → ProbeOutcome)
    (intr : Option IntrPoint) (insertOk : Nat → Bool) (db : DB) :
    DB × List Event × ExitStatus :=
  let r := python_main samples interval menv penv intr insertOk db
  match r.2.2 with
  | some .keyboardInterrupt => (r.1, r.2.1 ++ [Event.notice], .clean)
  | some e => (r.1, r.2.1, .aborted e)
  | none => (r.1, r.2.1, .clean)

/-- The entry `get_system_info()` produces at tick `i`. -/
def entryAt (menv : Nat → Metrics) (penv : Nat → ProbeOutcome) (i : Nat) : Entry :=
  get_system_info (menv i) (penv i)

/-- Fold of `insert_log` over a list of tick indices. -/
def insertAll (menv : Nat → Metrics) (penv : Nat → ProbeOutcome)
    (l : List Nat) (db : DB) : DB :=
  l.foldl (fun d i => insert_log d (entryAt menv penv i)) db

/-- The events one uninterrupted tick `i` emits: sample, insert, progress
line, and — exactly when `i < samples - 1` — the fixed-interval sleep. -/
def tickTrace (samples interval : Nat) (e : Entry) (i : Nat) : List Event :=
  [Event.sampled e, Event.inserted e, Event.progress (i + 1) samples e] ++
    (if i < samples - 1 then [Event.slept interval] else [])

/-- The full trace of an uninterrupted, failure-free loop over `l`. -/
def fullTrace (samples interval : Nat) (menv : Nat → Metrics) (penv : Nat → ProbeOutcome)
    (l : List Nat) : List Event :=
  (l.map (fun i => tickTrace samples interval (entryAt menv penv i) i)).flatten

/-- The always-true disk-writability oracle (no storage failures). -/
def ok1 : Nat → Bool := fun _ => true

/-! ### Store operations including hypothetical deletion (for the
never-reused-id property, which rests on `AUTOINCREMENT`) -/

/-- An operation on the store: an insert as performed by `insert_log`, or
a hypothetical deletion of the rows satisfying a predicate. The program
itself never deletes; `del` is included to express that `AUTOINCREMENT`
ids are not reused even if rows were removed. Deletion does not touch the
sequence counter. -/
inductive StoreOp where
  | ins (e : Entry)
  | del (p : Row → Bool)

def applyStoreOp (db : DB) : StoreOp → DB
  | .ins e => insert_log db e
  | .del p => { db with rows := db.rows.filter (fun r => !(p r)) }

def applyStoreOps (db : DB) (ops : List StoreOp) : DB :=
  ops.foldl applyStoreOp db

/-- The ids handed out by the store along a sequence of operations,
in the order they are assigned. -/
def assignedIds (db : DB) : List StoreOp → List Nat
  | [] => []
  | .ins e :: ops => db.nextId :: assignedIds (insert_log db e) ops
  | .del p :: ops => assignedIds (applyStoreOp db (.del p)) ops

/-! ### Helper lemmas -/

lemma ping_status_eq (o : ProbeOutcome) :
    ping_status o = if o = .exitCode 0 then "UP" else "DOWN" := by
  cases o with
  | exitCode c => cases c <;> simp [ping_status, ping_status_body, subprocess_run]
  | timeout => simp [ping_status, ping_status_body, subprocess_run]
  | launchFailure => simp [ping_status, ping_status_body, subprocess_run]

lemma ping_status_up_or_down (o : ProbeOutcome) :
    ping_status o = "UP" ∨ ping_status o = "DOWN" := by
  rw [ping_status_eq]; split <;> simp

lemma applyStoreOp_nextId_le (db : DB) (op : StoreOp) :
    db.nextId ≤ (applyStoreOp db op).nextId := by
  cases op <;> simp [applyStoreOp, insert_log]

lemma assignedIds_lower (db : DB) (ops : List StoreOp) :
    ∀ n ∈ assignedIds db ops, db.nextId ≤ n := by
  induction ops generalizing db with
  | nil => simp [assignedIds]
  | cons op rest ih =>
    cases op with
    | ins e =>
      intro n hn
      simp only [assignedIds, List.mem_cons] at hn
      rcases hn with h | h
      · omega
      · have := ih (insert_log db e) n h
        simp [insert_log] at this
        omega
    | del p =>
      intro n hn
      simp only [assignedIds] at hn
      have := ih (applyStoreOp db (.del p)) n hn
      have h2 := applyStoreOp_nextId_le db (.del p)
      omega

lemma assignedIds_chain (db : DB) (ops : List StoreOp) :
    List.Chain' (· < ·) (assignedIds db ops) := by
  induction ops generalizing db with
  | nil => simp [assignedIds]
  | cons op rest ih =>
    cases op with
    | ins e =>
      simp only [assignedIds]
      refine List.chain'_cons'.mpr ⟨?_, ih (insert_log db e)⟩
      intro y hy
      have hmem : y ∈ assignedIds (insert_log db e) rest := by
        exact List.mem_of_mem_head? hy
      have := assignedIds_lower (insert_log db e) rest y hmem
      simp [insert_log] at this
      omega
    | del p =>
      simpa [assignedIds] using ih (applyStoreOp db (.del p))

lemma chain_lt_nodup (l : List Nat) (h : List.Chain' (· < ·) l) : l.Nodup := by
  have hp : l.Pairwise (· < ·) := List.chain'_iff_pairwise.mp h
  exact hp.imp (fun hlt => Nat.ne_of_lt hlt)

lemma applyStoreOps_wf (db : DB) (ops : List StoreOp) (h : WellFormed db) :
    WellFormed (applyStoreOps db ops) := by
  induction ops generalizing db with
  | nil => simpa [applyStoreOps]
  | cons op rest ih =>
    have hstep : WellFormed (applyStoreOp db op) := by
      cases op with
      | ins e =>
        obtain ⟨h1, h2⟩ := h
        constructor
        · simp only [applyStoreOp, insert_log]
          refine List.pairwise_append.mpr ⟨h1, by simp, ?_⟩
          intro a ha b hb
          simp at hb
          subst hb
          simpa [rowOf] using h2 a ha
        · intro r hr
          simp only [applyStoreOp, insert_log] at hr ⊢
          simp at hr
          rcases hr with hr | hr
          · have := h2 r hr; omega
          · subst hr; simp [rowOf]
      | del p =>
        obtain ⟨h1, h2⟩ := h
        constructor
        · exact h1.sublist (List.filter_sublist _)
        · intro r hr
          simp only [applyStoreOp] at hr
          exact h2 r (List.mem_of_mem_filter hr)
    simpa [applyStoreOps] using ih (applyStoreOp db op) hstep

/-! Sorting helpers: the output of `ORDER BY id DESC` is sorted
(non-strictly) by `rowIdGe`, and strictly when the row ids are distinct. -/

lemma sorted_rowIdGe (l : List Row) :
    (List.insertionSort rowIdGe l).Pairwise rowIdGe :=
  List.sorted_insertionSort rowIdGe l

lemma strict_desc_of_nodup (l : List Row)
    (hs : l.Pairwise rowIdGe) (hn : (l.map Row.id).Nodup) :
    l.Pairwise (fun a b => b.id < a.id) := by
  have hne : l.Pairwise (fun a b : Row => a.id ≠ b.id) := List.pairwise_map.mp hn
  exact (hs.and hne).imp (fun h => lt_of_le_of_ne h.1 (Ne.symm h.2))

lemma insertionSort_ids_nodup (l : List Row) (hn : (l.map Row.id).Nodup) :
    ((List.insertionSort rowIdGe l).map Row.id).Nodup := by
  have hperm : List.Perm (List.insertionSort rowIdGe l) l := List.perm_insertionSort rowIdGe l
  exact ((hperm.map Row.id).nodup_iff).mpr hn

lemma wf_ids_nodup (db : DB) (h : WellFormed db) : (db.rows.map Row.id).Nodup := by
  refine List.pairwise_map.mpr (h.1.imp ?_)
  intro a b hab
  exact Nat.ne_of_lt hab

lemma show_last_logs_sorted (db : DB) (k : Int) (h : WellFormed db) :
    (show_last_logs db k).Pairwise (fun a b => b.id < a.id) := by
  have hs := sorted_rowIdGe db.rows
  have hn := insertionSort_ids_nodup db.rows (wf_ids_nodup db h)
  have hstrict := strict_desc_of_nodup _ hs hn
  unfold show_last_logs sqlLimit
  split
  · exact hstrict
  · exact hstrict.sublist (List.take_sublist _ _)

/-! ### Loop lemmas -/

/-- The rows an uninterrupted, failure-free loop over ticks `l` appends,
when the sequence counter starts at `nid`. -/
def newRows (menv : Nat → Metrics) (penv : Nat → ProbeOutcome) : Nat → List Nat → List Row
  | _, [] => []
  | nid, i :: rest => rowOf nid (entryAt menv penv i) :: newRows menv penv (nid + 1) rest

lemma newRows_length (menv : Nat → Metrics) (penv : Nat → ProbeOutcome) :
    ∀ (l : List Nat) (nid : Nat), (newRows menv penv nid l).length = l.length := by
  intro l
  induction l with
  | nil => intro nid; simp [newRows]
  | cons i rest ih => intro nid; simp [newRows, ih]

lemma insertAll_rows (menv : Nat → Metrics) (penv : Nat → ProbeOutcome) (l : List Nat) :
    ∀ (db : DB), (insertAll menv penv l db).rows = db.rows ++ newRows menv penv db.nextId l := by
  induction l with
  | nil => intro db; simp [insertAll, newRows]
  | cons i rest ih =>
    intro db
    simp only [insertAll, List.foldl_cons, newRows]
    have h := ih (insert_log db (entryAt menv penv i))
    simp only [insertAll] at h
    rw [h]
    simp [insert_log]

lemma insertAll_length (menv : Nat → Metrics) (penv : Nat → ProbeOutcome) (l : List Nat) (db : DB) :
    (insertAll menv penv l db).rows.length = db.rows.length + l.length := by
  simp [insertAll_rows, newRows_length]

lemma insertAll_tables (menv : Nat → Metrics) (penv : Nat → ProbeOutcome) (l : List Nat) :
    ∀ (db : DB), (insertAll menv penv l db).tables = db.tables := by
  induction l with
  | nil => intro db; simp [insertAll]
  | cons i rest ih =>
    intro db
    simp only [insertAll, List.foldl_cons]
    have h := ih (insert_log db (entryAt menv penv i))
    simp only [insertAll] at h
    rw [h]
    simp [insert_log]

/-- An uninterrupted run with a writable database file inserts every tick's
entry in order, emits exactly the per-tick traces, and raises nothing. -/
lemma loopIter_normal (samples interval : Nat) (menv : Nat → Metrics)
    (penv : Nat → ProbeOutcome) (l : List Nat) : ∀ (db : DB),
    loopIter samples interval menv penv none ok1 l db =
      (insertAll menv penv l db, fullTrace samples interval menv penv l, none) := by
  induction l with
  | nil => intro db; simp [loopIter, insertAll, fullTrace]
  | cons i rest ih =>
    intro db
    have ihdb := ih (insert_log db (entryAt menv penv i))
    simp only [entryAt] at ihdb
    by_cases h : i < samples - 1
    · simp [loopIter, ok1, h, ihdb, insertAll, fullTrace, tickTrace, entryAt]
    · simp [loopIter, ok1, h, ihdb, insertAll, fullTrace, tickTrace, entryAt]

/-- Whatever the oracles do, a run only ever appends whole rows built by
`rowOf` from a `get_system_info` entry: prior rows are untouched. -/
lemma loopIter_rows_extend (samples interval : Nat) (menv : Nat → Metrics)
    (penv : Nat → ProbeOutcome) (intr : Option IntrPoint) (insertOk : Nat → Bool)
    (l : List Nat) : ∀ (db : DB),
    ∃ tail, (loopIter samples interval menv penv intr insertOk l db).1.rows = db.rows ++ tail ∧
      ∀ r ∈ tail, ∃ n i, r = rowOf n (entryAt menv penv i) := by
  induction l with
  | nil => intro db; exact ⟨[], by simp [loopIter], by simp⟩
  | cons i rest ih =>
    intro db
    by_cases h1 : intr = some (.duringSample i)
    · exact ⟨[], by simp [loopIter, h1], by simp⟩
    · by_cases h2 : insertOk i
      · obtain ⟨tail, htail, hall⟩ := ih (insert_log db (entryAt menv penv i))
        by_cases h3 : i < samples - 1
        · by_cases h4 : intr = some (.duringSleep i)
          · refine ⟨[rowOf db.nextId (entryAt menv penv i)], ?_, ?_⟩
            · simp [loopIter, h1, h2, h3, h4, insert_log, entryAt]
            · intro r hr; simp at hr; exact ⟨db.nextId, i, hr⟩
          · refine ⟨rowOf db.nextId (entryAt menv penv i) :: tail, ?_, ?_⟩
            · simp only [loopIter, h1, h2, h3, h4, if_false, if_true, ite_true, ite_false]
              simp only [entryAt] at htail ⊢
              rw [htail]
              simp [insert_log]
            · intro r hr
              rcases List.mem_cons.mp hr with hr | hr
              · exact ⟨db.nextId, i, hr⟩
              · exact hall r hr
        · refine ⟨rowOf db.nextId (entryAt menv penv i) :: tail, ?_, ?_⟩
          · simp only [loopIter, h1, h2, h3, if_false, if_true, ite_true, ite_false]
            simp only [entryAt] at htail ⊢
            rw [htail]
            simp [insert_log]
          · intro r hr
            rcases List.mem_cons.mp hr with hr | hr
            · exact ⟨db.nextId, i, hr⟩
            · exact hall r hr
      · exact ⟨[], by simp [loopIter, h1, h2], by simp⟩

/-- Events the loop body itself can emit (everything except the reports
and the interrupt notice, which only the tail of `main` and the
`__main__` handler emit). -/
def loopEvent : Event → Bool
  | .sampled _ => true
  | .inserted _ => true
  | .progress _ _ _ => true
  | .slept _ => true
  | .reportRecent _ _ => false
  | .reportFailed _ => false
  | .notice => false

lemma loopIter_events_kind (samples interval : Nat) (menv : Nat → Metrics)
    (penv : Nat → ProbeOutcome) (intr : Option IntrPoint) (insertOk : Nat → Bool)
    (l : List Nat) : ∀ (db : DB),
    ∀ ev ∈ (loopIter samples interval menv penv intr insertOk l db).2.1,
      loopEvent ev = true := by
  induction l with
  | nil => intro db ev hev; simp [loopIter] at hev
  | cons i rest ih =>
    intro db ev hev
    by_cases h1 : intr = some (.duringSample i)
    · simp [loopIter, h1] at hev
    · by_cases h2 : insertOk i
      · by_cases h3 : i < samples - 1
        · by_cases h4 : intr = some (.duringSleep i)
          · simp [loopIter, h1, h2, h3, h4] at hev
            rcases hev with rfl | rfl | rfl <;> rfl
          · simp only [loopIter, h1, h2, h3, h4, if_false, if_true, ite_true,
              ite_false, List.cons_append, List.nil_append, List.mem_cons] at hev
            rcases hev with rfl | rfl | rfl | rfl | h
            · rfl
            · rfl
            · rfl
            · rfl
            · exact ih _ ev h
        · simp only [loopIter, h1, h2, h3, if_false, if_true, ite_true,
            ite_false, List.cons_append, List.nil_append, List.mem_cons] at hev
          rcases hev with rfl | rfl | rfl | h
          · rfl
          · rfl
          · rfl
          · exact ih _ ev h
      · simp only [loopIter, h1, h2, if_false, ite_false, Bool.false_eq_true,
          List.mem_singleton] at hev
        rcases hev with rfl; rfl

/-- Interrupt during the sleep after (0-indexed) tick `j`: the loop stops
with a `KeyboardInterrupt` having inserted exactly the entries of ticks
`i, ..., j`. -/
lemma loopIter_sleep_intr (samples interval : Nat) (menv : Nat → Metrics)
    (penv : Nat → ProbeOutcome) (j : Nat) (hj : j < samples - 1) :
    ∀ (k i : Nat) (db : DB), i ≤ j → i + k = samples →
    (loopIter samples interval menv penv (some (.duringSleep j)) ok1
        (List.range' i k) db).1 =
      insertAll menv penv (List.range' i (j + 1 - i)) db ∧
    (loopIter samples interval menv penv (some (.duringSleep j)) ok1
        (List.range' i k) db).2.2 = some .keyboardInterrupt := by
  intro k
  induction k with
  | zero => intro i db hij hik; omega
  | succ k ih =>
    intro i db hij hik
    rw [List.range'_succ]
    have h3 : i < samples - 1 := by omega
    by_cases hji : i = j
    · subst hji
      have e1 : i + 1 - i = 1 := by omega
      constructor
      · simp only [loopIter, ok1, h3, if_true, ite_true]
        simp [e1, List.range'_one, insertAll, entryAt]
      · simp only [loopIter, ok1, h3, if_true, ite_true]
        simp
    · have h4 : ¬ (some (IntrPoint.duringSleep j) = some (IntrPoint.duringSleep i)) := by
        simp; omega
      have ih' := ih (i + 1) (insert_log db (entryAt menv penv i)) (by omega) (by omega)
      simp only [entryAt] at ih'
      have e1 : j + 1 - i = (j - i) + 1 := by omega
      have e2 : j + 1 - (i + 1) = j - i := by omega
      rw [e2] at ih'
      constructor
      · rw [e1, List.range'_succ]
        simp only [insertAll, List.foldl_cons]
        simp only [loopIter, ok1, h3, if_true, ite_true, h4, ite_false]
        simp only [insertAll] at ih'
        simp [ih'.1, entryAt]
      · simp only [loopIter, ok1, h3, if_true, ite_true, h4, ite_false]
        simp [ih'.2]

/-- Interrupt during the blocking calls of (0-indexed) tick `j`, before its
insert: the loop stops with a `KeyboardInterrupt` having inserted exactly
the entries of ticks `i, ..., j - 1`. -/
lemma loopIter_sample_intr (samples interval : Nat) (menv : Nat → Metrics)
    (penv : Nat → ProbeOutcome) (j : Nat) (hj : j < samples) :
    ∀ (k i : Nat) (db : DB), i ≤ j → i + k = samples →
    (loopIter samples interval menv penv (some (.duringSample j)) ok1
        (List.range' i k) db).1 =
      insertAll menv penv (List.range' i (j - i)) db ∧
    (loopIter samples interval menv penv (some (.duringSample j)) ok1
        (List.range' i k) db).2.2 = some .keyboardInterrupt := by
  intro k
  induction k with
  | zero => intro i db hij hik; omega
  | succ k ih =>
    intro i db hij hik
    rw [List.range'_succ]
    by_cases hji : i = j
    · subst hji
      constructor
      · simp [loopIter, insertAll]
      · simp [loopIter]
    · have h1 : ¬ (some (IntrPoint.duringSample j) = some (IntrPoint.duringSample i)) := by
        simp; omega
      have h3 : i < samples - 1 := by omega
      have ih' := ih (i + 1) (insert_log db (entryAt menv penv i)) (by omega) (by omega)
      simp only [entryAt] at ih'
      have e1 : j - i = (j - (i + 1)) + 1 := by omega
      constructor
      · rw [e1, List.range'_succ]
        simp only [insertAll, List.foldl_cons]
        simp only [loopIter, ok1, h1, ite_false, h3, if_true, ite_true]
        simp only [insertAll] at ih'
        simp [ih'.1, entryAt]
      · simp only [loopIter, ok1, h1, ite_false, h3, if_true, ite_true]
        simp [ih'.2]

/-- First storage failure at (0-indexed) tick `j`: the loop raises
`sqlite3.OperationalError` having inserted exactly the entries of ticks
`i, ..., j - 1`; the failed sample is not stored. -/
lemma loopIter_fail (samples interval : Nat) (menv : Nat → Metrics)
    (penv : Nat → ProbeOutcome) (j : Nat) (insertOk : Nat → Bool)
    (hj : j < samples) (hok : ∀ i, i < j → insertOk i = true)
    (hfail : insertOk j = false) :
    ∀ (k i : Nat) (db : DB), i ≤ j → i + k = samples →
    (loopIter samples interval menv penv none insertOk (List.range' i k) db).1 =
      insertAll menv penv (List.range' i (j - i)) db ∧
    (loopIter samples interval menv penv none insertOk (List.range' i k) db).2.2 =
      some .operationalError := by
  intro k
  induction k with
  | zero => intro i db hij hik; omega
  | succ k ih =>
    intro i db hij hik
    rw [List.range'_succ]
    by_cases hji : i = j
    · subst hji
      constructor
      · simp [loopIter, hfail, insertAll]
      · simp [loopIter, hfail]
    · have h2 : insertOk i = true := hok i (by omega)
      have h3 : i < samples - 1 := by omega
      have ih' := ih (i + 1) (insert_log db (entryAt menv penv i)) (by omega) (by omega)
      simp only [entryAt] at ih'
      have e1 : j - i = (j - (i + 1)) + 1 := by omega
      constructor
      · rw [e1, List.range'_succ]
        simp only [insertAll, List.foldl_cons]
        simp only [loopIter, h2, h3, if_true, ite_true]
        simp only [insertAll] at ih'
        simp [ih'.1, entryAt]
      · simp only [loopIter, h2, h3, if_true, ite_true]
        simp [ih'.2]

/-- The database state the process leaves behind is exactly the loop's
final state: the reporting tail and the `__main__` handler never touch
the database. -/
lemma entry_point_db (samples interval : Nat) (menv : Nat → Metrics)
    (penv : Nat → ProbeOutcome) (intr : Option IntrPoint) (insertOk : Nat → Bool)
    (db : DB) :
    (entry_point samples interval menv penv intr insertOk db).1 =
      (loopIter samples interval menv penv intr insertOk (List.range samples)
        (init_db db)).1 := by
  simp only [entry_point, python_main]
  rcases herr : (loopIter samples interval menv penv intr insertOk (List.range samples)
      (init_db db)).2.2 with _ | e
  · simp [herr]
  · cases e <;> simp [herr]

/-- When the loop is killed by a `KeyboardInterrupt`, the handler prints
the notice and the process exits cleanly with the loop's database state. -/
lemma entry_point_kb (samples interval : Nat) (menv : Nat → Metrics)
    (penv : Nat → ProbeOutcome) (intr : Option IntrPoint) (insertOk : Nat → Bool)
    (db : DB)
    (h : (loopIter samples interval menv penv intr insertOk (List.range samples)
        (init_db db)).2.2 = some .keyboardInterrupt) :
    entry_point samples interval menv penv intr insertOk db =
      ((loopIter samples interval menv penv intr insertOk (List.range samples)
          (init_db db)).1,
       (loopIter samples interval menv penv intr insertOk (List.range samples)
          (init_db db)).2.1 ++ [Event.notice],
       .clean) := by
  simp [entry_point, python_main, h]

/-- Concrete oracles for witnesses. -/
def cMetrics : Metrics := ⟨"2025-01-01 00:00:00", 1, 2, 3⟩
def cmenv : Nat → Metrics := fun _ => cMetrics
def cpenv : Nat → ProbeOutcome := fun _ => .exitCode 0
def cEntry : Entry := ⟨"2025-01-01 00:00:00", 1, 2, 3, "UP"⟩

/-! ### Claim theorems -/

/-- C3: `ping_status` returns `UP` exactly when the single-packet ping
utility exits with code 0 within the timeout; it returns `DOWN` on
timeout, on a non-zero exit code and on launch failure (utility absent);
the value is always one of `UP`/`DOWN` (the `except` clause absorbs every
exception, so nothing is raised to the caller); and one call launches
exactly one subprocess command (no retry). -/
theorem C3_probe (system host : String) (o : ProbeOutcome) (c : Nat) :
    (ping_status o = "UP" ↔ o = .exitCode 0) ∧
    ping_status .timeout = "DOWN" ∧
    ping_status .launchFailure = "DOWN" ∧
    (c ≠ 0 → ping_status (.exitCode c) = "DOWN") ∧
    (ping_status o = "UP" ∨ ping_status o = "DOWN") ∧
    (∀ e, ping_status_body o = .error e → ping_status o = "DOWN") ∧
    (ping_launches system host o).length = 1 := by
  refine ⟨?_, rfl, rfl, ?_, ping_status_up_or_down o, ?_, rfl⟩
  · rw [ping_status_eq]
    split <;> simp_all
  · intro hc
    rw [ping_status_eq]
    simp [hc]
  · intro e he
    simp [ping_status, he]

/-- C3 witness: at `o = .timeout` with `c = 7`, every hypothesis of the
conjuncts is dischargeable and the conclusions evaluate. -/
theorem C3_witness :
    (ping_status .timeout = "UP" ↔ ProbeOutcome.timeout = .exitCode 0) ∧
    ping_status .timeout = "DOWN" ∧
    ping_status .launchFailure = "DOWN" ∧
    ((7 : Nat) ≠ 0 → ping_status (.exitCode 7) = "DOWN") ∧
    (ping_status .timeout = "UP" ∨ ping_status .timeout = "DOWN") ∧
    (∀ e, ping_status_body .timeout = .error e → ping_status .timeout = "DOWN") ∧
    (ping_launches "linux" PING_HOST .timeout).length = 1 :=
  C3_probe "linux" PING_HOST .timeout 7

/-- C7: `init_db` is idempotent: a second call is the identity on the
result of the first; no call ever loses rows; afterwards the
`system_log` table exists with the six-column schema (when it had to be
created); and starting from at most one copy of the table, two calls
still leave at most one copy (no duplicate tables). -/
theorem C7_idempotent (db : DB) :
    init_db (init_db db) = init_db db ∧
    (init_db db).rows = db.rows ∧
    TABLE_NAME ∈ (init_db db).tables ∧
    (init_db db).schema = (if TABLE_NAME ∈ db.tables then db.schema else tableColumns) ∧
    tableColumns.length = 6 ∧
    (db.tables.count TABLE_NAME ≤ 1 →
      (init_db (init_db db)).tables.count TABLE_NAME ≤ 1) := by
  by_cases h : TABLE_NAME ∈ db.tables
  · refine ⟨?_, ?_, ?_, ?_, rfl, ?_⟩ <;> simp [init_db, h]
  · have h2 : TABLE_NAME ∈ db.tables ++ [TABLE_NAME] := by simp
    refine ⟨?_, ?_, ?_, ?_, rfl, ?_⟩
    · simp [init_db, h, h2]
    · simp [init_db, h]
    · simp [init_db, h, h2]
    · simp [init_db, h]
    · intro hc
      have hz : db.tables.count TABLE_NAME = 0 := List.count_eq_zero.mpr h
      simp [init_db, h, h2, List.count_append, hz]

/-- C7 witness: on the fresh database file both `init_db` calls behave as
claimed. -/
theorem C7_witness :
    init_db (init_db emptyDB) = init_db emptyDB ∧
    (init_db emptyDB).rows = emptyDB.rows ∧
    TABLE_NAME ∈ (init_db emptyDB).tables ∧
    (init_db emptyDB).schema
      = (if TABLE_NAME ∈ emptyDB.tables then emptyDB.schema else tableColumns) ∧
    tableColumns.length = 6 ∧
    (emptyDB.tables.count TABLE_NAME ≤ 1 →
      (init_db (init_db emptyDB)).tables.count TABLE_NAME ≤ 1) :=
  C7_idempotent emptyDB

/-- C4: along any sequence of store operations (inserts, and hypothetical
row deletions, which the program itself never performs), the ids the
store assigns strictly increase in insertion order, are pairwise distinct
and are never reused — an id handed out after a deletion still differs
from every id ever assigned — and the rows remaining in the store keep
strictly increasing ids below the sequence counter. -/
theorem C4_ids (db : DB) (ops : List StoreOp) (h : WellFormed db) :
    List.Chain' (· < ·) (assignedIds db ops) ∧
    (assignedIds db ops).Nodup ∧
    WellFormed (applyStoreOps db ops) := by
  refine ⟨assignedIds_chain db ops, ?_, applyStoreOps_wf db ops h⟩
  exact chain_lt_nodup _ (assignedIds_chain db ops)

/-- C4 witness: insert twice, delete everything, insert again — the three
assigned ids `1, 2, 3` are strictly increasing and distinct even though
the first two rows are gone when the third id is assigned. -/
theorem C4_witness :
    List.Chain' (· < ·)
      (assignedIds emptyDB [.ins cEntry, .ins cEntry, .del (fun _ => true), .ins cEntry]) ∧
    (assignedIds emptyDB [.ins cEntry, .ins cEntry, .del (fun _ => true), .ins cEntry]).Nodup ∧
    WellFormed (applyStoreOps emptyDB
      [.ins cEntry, .ins cEntry, .del (fun _ => true), .ins cEntry]) :=
  C4_ids emptyDB [.ins cEntry, .ins cEntry, .del (fun _ => true), .ins cEntry]
    ⟨by simp [emptyDB], by simp [emptyDB]⟩

lemma insertionSort_length (l : List Row) :
    (List.insertionSort rowIdGe l).length = l.length :=
  (List.perm_insertionSort rowIdGe l).length_eq

/-- A one-row database state reachable by one insert after `init_db`. -/
def exDB : DB :=
  { tables := [TABLE_NAME], schema := tableColumns, nextId := 2,
    rows := [⟨1, "2025-01-01 00:00:00", 1, 2, 3, "UP"⟩] }

/-- A two-row database state whose second row is a DOWN sample. -/
def exDB2 : DB :=
  { tables := [TABLE_NAME], schema := tableColumns, nextId := 3,
    rows := [⟨1, "2025-01-01 00:00:00", 1, 2, 3, "UP"⟩,
             ⟨2, "2025-01-01 00:00:10", 4, 5, 6, "DOWN"⟩] }

/-- C1 counterexample: on a one-row table, `show_last_logs(-1)` returns the
row rather than the empty result the claim demands for every `k ≤ 0`
(SQLite treats a negative `LIMIT` as "no limit"), and its length is `1`,
not `min(-1, 1)`. -/
theorem C1_counterexample :
    ¬ (show_last_logs exDB (-1) = []) ∧
    ¬ (((show_last_logs exDB (-1)).length : Int)
        = min (-1 : Int) (exDB.rows.length : Int)) := by
  constructor
  · intro h
    have := congrArg List.length h
    simp [show_last_logs, sqlLimit, exDB, List.insertionSort] at this
  · intro h
    simp [show_last_logs, sqlLimit, exDB, List.insertionSort] at h

/-- C1 (amended): for every well-formed store state, `show_last_logs(k)`
returns rows in strictly descending id order; for `k ≥ 0` its length is
`min(k, total_rows)` — so `k = 0` and the empty table yield an empty
result, not an error — while for `k < 0` SQLite's `LIMIT` is unbounded
and all rows are returned. -/
theorem C1_query (db : DB) (k : Int) (h : WellFormed db) :
    (show_last_logs db k).Pairwise (fun a b => b.id < a.id) ∧
    (0 ≤ k → (show_last_logs db k).length = min k.toNat db.rows.length) ∧
    (k < 0 → (show_last_logs db k).length = db.rows.length) ∧
    show_last_logs db 0 = [] ∧
    (db.rows = [] → show_last_logs db k = []) := by
  refine ⟨show_last_logs_sorted db k h, ?_, ?_, ?_, ?_⟩
  · intro hk
    have hneg : ¬ (k < 0) := by omega
    simp [show_last_logs, sqlLimit, hneg, insertionSort_length]
  · intro hk
    simp [show_last_logs, sqlLimit, hk, insertionSort_length]
  · simp [show_last_logs, sqlLimit]
  · intro hrows
    simp [show_last_logs, sqlLimit, hrows, List.insertionSort]

/-- C1 witness: the amended statement evaluated on the one-row state at
`k = 5`: sorted descending, length `min(5, 1) = 1`. -/
theorem C1_witness :
    (show_last_logs exDB 5).Pairwise (fun a b => b.id < a.id) ∧
    (0 ≤ (5 : Int) → (show_last_logs exDB 5).length
        = min (5 : Int).toNat exDB.rows.length) ∧
    ((5 : Int) < 0 → (show_last_logs exDB 5).length = exDB.rows.length) ∧
    show_last_logs exDB 0 = [] ∧
    (exDB.rows = [] → show_last_logs exDB 5 = []) :=
  C1_query exDB 5 ⟨by simp [exDB], by simp [exDB]⟩

/-- C8: `show_failed_pings` returns exactly the stored rows whose
`ping_status` literally equals `'DOWN'`, in strictly descending id order,
and every returned row also appears in the unbounded recent query
(`show_last_logs` with a negative limit returns all rows). -/
theorem C8_failed (db : DB) (h : WellFormed db) :
    (∀ r, r ∈ show_failed_pings db ↔ r ∈ db.rows ∧ r.pstat = "DOWN") ∧
    (show_failed_pings db).Pairwise (fun a b => b.id < a.id) ∧
    (∀ r ∈ show_failed_pings db, r ∈ show_last_logs db (-1)) := by
  have hmem : ∀ r, r ∈ show_failed_pings db ↔ r ∈ db.rows ∧ r.pstat = "DOWN" := by
    intro r
    unfold show_failed_pings
    rw [(List.perm_insertionSort rowIdGe _).mem_iff, List.mem_filter]
    simp
  refine ⟨hmem, ?_, ?_⟩
  · have hsub : (db.rows.filter (fun r => r.pstat == "DOWN")).Sublist db.rows :=
      List.filter_sublist _
    have hnd : ((db.rows.filter (fun r => r.pstat == "DOWN")).map Row.id).Nodup :=
      (wf_ids_nodup db h).sublist (hsub.map Row.id)
    exact strict_desc_of_nodup _ (sorted_rowIdGe _) (insertionSort_ids_nodup _ hnd)
  · intro r hr
    have := (hmem r).mp hr
    unfold show_last_logs sqlLimit
    rw [if_pos (by omega)]
    exact ((List.perm_insertionSort rowIdGe db.rows).mem_iff).mpr this.1

/-- C8 witness: on the two-row state the failed-ping query returns exactly
the DOWN row, descending, and it is contained in the unbounded recent
query. -/
theorem C8_witness :
    (∀ r, r ∈ show_failed_pings exDB2 ↔ r ∈ exDB2.rows ∧ r.pstat = "DOWN") ∧
    (show_failed_pings exDB2).Pairwise (fun a b => b.id < a.id) ∧
    (∀ r ∈ show_failed_pings exDB2, r ∈ show_last_logs exDB2 (-1)) :=
  C8_failed exDB2 ⟨by simp [exDB2], by simp [exDB2]⟩

/-- C2: an uninterrupted, failure-free run performs exactly `N` ticks:
the whole run equals `init_db` followed by one insert per tick and the
final recent-report, the trace is the concatenation of the per-tick
traces, each tick's trace is sample-then-insert-then-progress followed by
the fixed-interval sleep exactly when the tick is not the last
(`i + 1 < N`), and afterwards the store holds exactly `N` new rows. -/
theorem C2_run (samples interval : Nat) (menv : Nat → Metrics)
    (penv : Nat → ProbeOutcome) (db : DB) :
    python_main samples interval menv penv none ok1 db =
      (insertAll menv penv (List.range samples) (init_db db),
       fullTrace samples interval menv penv (List.range samples) ++
         [Event.reportRecent 5 (show_last_logs
            (insertAll menv penv (List.range samples) (init_db db)) 5)],
       none) ∧
    (insertAll menv penv (List.range samples) (init_db db)).rows.length
      = (init_db db).rows.length + samples ∧
    (∀ i e, tickTrace samples interval e i
        = [Event.sampled e, Event.inserted e, Event.progress (i + 1) samples e] ++
          (if i + 1 < samples then [Event.slept interval] else [])) ∧
    (∀ i e, Event.slept interval ∈ tickTrace samples interval e i ↔ i + 1 < samples) := by
  refine ⟨?_, ?_, ?_, ?_⟩
  · simp [python_main, loopIter_normal]
  · simp [insertAll_length]
  · intro i e
    by_cases hi : i + 1 < samples
    · have h : i < samples - 1 := by omega
      simp [tickTrace, h, hi]
    · have h : ¬ (i < samples - 1) := by omega
      simp [tickTrace, h, hi]
  · intro i e
    by_cases hi : i + 1 < samples
    · have h : i < samples - 1 := by omega
      simp [tickTrace, h, hi]
    · have h : ¬ (i < samples - 1) := by omega
      simp [tickTrace, h, hi]

/-- C5: every stored sample is fully populated: `get_system_info` builds
all five fields and its ping status is always the literal `UP` or `DOWN`
(never a null — a failed probe yields `DOWN`); `insert_log` only appends
a complete row built from its entry, `init_db` never touches rows, and
whatever the oracles do to a run, the rows present before it are still
there unchanged afterwards, followed only by whole new sample rows. -/
theorem C5_populated (samples interval : Nat) (menv : Nat → Metrics)
    (penv : Nat → ProbeOutcome) (intr : Option IntrPoint) (insertOk : Nat → Bool)
    (db : DB) (e : Entry) (m : Metrics) (o : ProbeOutcome) :
    ((get_system_info m o).pstat = "UP" ∨ (get_system_info m o).pstat = "DOWN") ∧
    get_system_info m o = ⟨m.now, m.cpu, m.memory, m.disk, ping_status o⟩ ∧
    (insert_log db e).rows = db.rows ++ [rowOf db.nextId e] ∧
    rowOf db.nextId e = ⟨db.nextId, e.timestamp, e.cpu, e.memory, e.disk, e.pstat⟩ ∧
    (init_db db).rows = db.rows ∧
    (∃ tail, (entry_point samples interval menv penv intr insertOk db).1.rows
        = (init_db db).rows ++ tail ∧
      ∀ r ∈ tail, r.pstat = "UP" ∨ r.pstat = "DOWN") := by
  refine ⟨ping_status_up_or_down o, rfl, rfl, rfl, ?_, ?_⟩
  · by_cases h : TABLE_NAME ∈ db.tables <;> simp [init_db, h]
  · rw [entry_point_db]
    obtain ⟨tail, htail, hall⟩ :=
      loopIter_rows_extend samples interval menv penv intr insertOk
        (List.range samples) (init_db db)
    refine ⟨tail, htail, ?_⟩
    intro r hr
    obtain ⟨n, i, rfl⟩ := hall r hr
    simpa [rowOf, entryAt, get_system_info] using
      ping_status_up_or_down (penv i)

/-- C6: if the interrupt arrives during the sleep after tick `j`
(0-indexed; i.e. between the `(j+1)`-th and `(j+2)`-th samples) the store
holds exactly `j + 1` new whole rows, and if it arrives during the
blocking sampling calls of tick `j` (between the `j`-th and `(j+1)`-th
samples, before tick `j`'s insert) it holds exactly `j` new rows; in both
cases all prior rows are intact, the notice is printed and the process
exits cleanly instead of re-raising. -/
theorem C6_interrupt (samples interval : Nat) (menv : Nat → Metrics)
    (penv : Nat → ProbeOutcome) (db : DB) (j : Nat) :
    (j + 1 < samples →
      (entry_point samples interval menv penv (some (.duringSleep j)) ok1 db).1.rows.length
          = (init_db db).rows.length + (j + 1) ∧
      (entry_point samples interval menv penv (some (.duringSleep j)) ok1 db).1.rows.take
          (init_db db).rows.length = (init_db db).rows ∧
      (entry_point samples interval menv penv (some (.duringSleep j)) ok1 db).2.2
          = ExitStatus.clean ∧
      Event.notice ∈
        (entry_point samples interval menv penv (some (.duringSleep j)) ok1 db).2.1) ∧
    (j < samples →
      (entry_point samples interval menv penv (some (.duringSample j)) ok1 db).1.rows.length
          = (init_db db).rows.length + j ∧
      (entry_point samples interval menv penv (some (.duringSample j)) ok1 db).1.rows.take
          (init_db db).rows.length = (init_db db).rows ∧
      (entry_point samples interval menv penv (some (.duringSample j)) ok1 db).2.2
          = ExitStatus.clean ∧
      Event.notice ∈
        (entry_point samples interval menv penv (some (.duringSample j)) ok1 db).2.1) := by
  constructor
  · intro hj1
    have hj : j < samples - 1 := by omega
    have hlem := loopIter_sleep_intr samples interval menv penv j hj samples 0
      (init_db db) (by omega) (by omega)
    rw [← List.range_eq_range'] at hlem
    have hkb := entry_point_kb samples interval menv penv (some (.duringSleep j)) ok1 db
      hlem.2
    have hrows : (loopIter samples interval menv penv (some (.duringSleep j)) ok1
        (List.range samples) (init_db db)).1.rows
          = (init_db db).rows ++ newRows menv penv (init_db db).nextId
              (List.range' 0 (j + 1 - 0)) := by
      rw [hlem.1, insertAll_rows]
    refine ⟨?_, ?_, ?_, ?_⟩
    · rw [hkb]
      simp [hrows, newRows_length]
    · rw [hkb]
      simp only [hrows]
      exact List.take_left _ _
    · rw [hkb]
    · rw [hkb]
      simp
  · intro hj1
    have hlem := loopIter_sample_intr samples interval menv penv j hj1 samples 0
      (init_db db) (by omega) (by omega)
    rw [← List.range_eq_range'] at hlem
    have hkb := entry_point_kb samples interval menv penv (some (.duringSample j)) ok1 db
      hlem.2
    have hrows : (loopIter samples interval menv penv (some (.duringSample j)) ok1
        (List.range samples) (init_db db)).1.rows
          = (init_db db).rows ++ newRows menv penv (init_db db).nextId
              (List.range' 0 (j - 0)) := by
      rw [hlem.1, insertAll_rows]
    refine ⟨?_, ?_, ?_, ?_⟩
    · rw [hkb]
      simp [hrows, newRows_length]
    · rw [hkb]
      simp only [hrows]
      exact List.take_left _ _
    · rw [hkb]
    · rw [hkb]
      simp

/-- C6 witness: a 3-sample run interrupted around tick 1 — during the
sleep after tick 1 exactly 2 rows persist; during tick 1's sampling
exactly 1 row persists; both exits are clean with the notice printed. -/
theorem C6_witness :
    ((entry_point 3 0 cmenv cpenv (some (.duringSleep 1)) ok1 emptyDB).1.rows.length
        = (init_db emptyDB).rows.length + 2 ∧
      (entry_point 3 0 cmenv cpenv (some (.duringSleep 1)) ok1 emptyDB).1.rows.take
        (init_db emptyDB).rows.length = (init_db emptyDB).rows ∧
      (entry_point 3 0 cmenv cpenv (some (.duringSleep 1)) ok1 emptyDB).2.2
        = ExitStatus.clean ∧
      Event.notice ∈
        (entry_point 3 0 cmenv cpenv (some (.duringSleep 1)) ok1 emptyDB).2.1) ∧
    ((entry_point 3 0 cmenv cpenv (some (.duringSample 1)) ok1 emptyDB).1.rows.length
        = (init_db emptyDB).rows.length + 1 ∧
      (entry_point 3 0 cmenv cpenv (some (.duringSample 1)) ok1 emptyDB).1.rows.take
        (init_db emptyDB).rows.length = (init_db emptyDB).rows ∧
      (entry_point 3 0 cmenv cpenv (some (.duringSample 1)) ok1 emptyDB).2.2
        = ExitStatus.clean ∧
      Event.notice ∈
        (entry_point 3 0 cmenv cpenv (some (.duringSample 1)) ok1 emptyDB).2.1) :=
  ⟨(C6_interrupt 3 0 cmenv cpenv emptyDB 1).1 (by omega),
   (C6_interrupt 3 0 cmenv cpenv emptyDB 1).2 (by omega)⟩

/-- C9: if the database file is unwritable at tick `j` (and writable
before), the `sqlite3.OperationalError` escaping `insert_log` is absorbed
nowhere: `main` raises it, the `__main__` handler does not catch it (it
only catches `KeyboardInterrupt`), the process aborts with it, the
reporting phase never runs, no interrupt notice is printed, and exactly
the `j` samples inserted before the failure are stored. -/
theorem C9_storage (samples interval : Nat) (menv : Nat → Metrics)
    (penv : Nat → ProbeOutcome) (db : DB) (j : Nat) (insertOk : Nat → Bool)
    (hj : j < samples) (hok : ∀ i, i < j → insertOk i = true)
    (hfail : insertOk j = false) :
    (python_main samples interval menv penv none insertOk db).2.2
        = some .operationalError ∧
    (entry_point samples interval menv penv none insertOk db).2.2
        = ExitStatus.aborted .operationalError ∧
    (entry_point samples interval menv penv none insertOk db).1.rows.length
        = (init_db db).rows.length + j ∧
    (∀ k rows, Event.reportRecent k rows
        ∉ (entry_point samples interval menv penv none insertOk db).2.1) ∧
    Event.notice ∉ (entry_point samples interval menv penv none insertOk db).2.1 := by
  have hlem := loopIter_fail samples interval menv penv j insertOk hj hok hfail
    samples 0 (init_db db) (by omega) (by omega)
  rw [← List.range_eq_range'] at hlem
  have hmain : python_main samples interval menv penv none insertOk db =
      ((loopIter samples interval menv penv none insertOk (List.range samples)
          (init_db db)).1,
       (loopIter samples interval menv penv none insertOk (List.range samples)
          (init_db db)).2.1,
       some .operationalError) := by
    simp [python_main, hlem.2]
  have hentry : entry_point samples interval menv penv none insertOk db =
      ((loopIter samples interval menv penv none insertOk (List.range samples)
          (init_db db)).1,
       (loopIter samples interval menv penv none insertOk (List.range samples)
          (init_db db)).2.1,
       ExitStatus.aborted .operationalError) := by
    simp [entry_point, hmain]
  refine ⟨by rw [hmain], by rw [hentry], ?_, ?_, ?_⟩
  · rw [hentry]
    simp only [hlem.1, insertAll_rows]
    simp [newRows_length]
  · intro k rows hmem
    rw [hentry] at hmem
    have := loopIter_events_kind samples interval menv penv none insertOk
      (List.range samples) (init_db db) _ hmem
    simp [loopEvent] at this
  · intro hmem
    rw [hentry] at hmem
    have := loopIter_events_kind samples interval menv penv none insertOk
      (List.range samples) (init_db db) _ hmem
    simp [loopEvent] at this

/-- C9 witness: 2 samples, file unwritable from the start (`j = 0`): the
process aborts with the storage error and stores nothing. -/
theorem C9_witness :
    (python_main 2 0 cmenv cpenv none (fun _ => false) emptyDB).2.2
        = some .operationalError ∧
    (entry_point 2 0 cmenv cpenv none (fun _ => false) emptyDB).2.2
        = ExitStatus.aborted .operationalError ∧
    (entry_point 2 0 cmenv cpenv none (fun _ => false) emptyDB).1.rows.length
        = (init_db emptyDB).rows.length + 0 :=
  have h := C9_storage 2 0 cmenv cpenv emptyDB 0 (fun _ => false) (by omega)
    (fun i hi => absurd hi (by omega)) rfl
  ⟨h.1, h.2.1, h.2.2.1⟩

/-- Every event a whole process run emits is a loop event, the interrupt
notice, or the single fixed-limit recent-entries report. -/
lemma entry_point_events (samples interval : Nat) (menv : Nat → Metrics)
    (penv : Nat → ProbeOutcome) (intr : Option IntrPoint) (insertOk : Nat → Bool)
    (db : DB) :
    ∀ ev ∈ (entry_point samples interval menv penv intr insertOk db).2.1,
      loopEvent ev = true ∨ ev = Event.notice ∨
        ev = Event.reportRecent 5
          (show_last_logs
            (loopIter samples interval menv penv intr insertOk (List.range samples)
              (init_db db)).1 5) := by
  intro ev hev
  simp only [entry_point, python_main] at hev
  rcases herr : (loopIter samples interval menv penv intr insertOk (List.range samples)
      (init_db db)).2.2 with _ | e
  · rw [herr] at hev
    simp at hev
    rcases hev with hev | hev
    · exact .inl (loopIter_events_kind samples interval menv penv intr insertOk
        (List.range samples) (init_db db) ev hev)
    · exact .inr (.inr hev)
  · rw [herr] at hev
    cases e with
    | keyboardInterrupt =>
      simp at hev
      rcases hev with hev | hev
      · exact .inl (loopIter_events_kind samples interval menv penv intr insertOk
          (List.range samples) (init_db db) ev hev)
      · exact .inr (.inl hev)
    | calledProcessError c =>
      simp at hev
      exact .inl (loopIter_events_kind samples interval menv penv intr insertOk
        (List.range samples) (init_db db) ev hev)
    | timeoutExpired =>
      simp at hev
      exact .inl (loopIter_events_kind samples interval menv penv intr insertOk
        (List.range samples) (init_db db) ev hev)
    | fileNotFoundError =>
      simp at hev
      exact .inl (loopIter_events_kind samples interval menv penv intr insertOk
        (List.range samples) (init_db db) ev hev)
    | operationalError =>
      simp at hev
      exact .inl (loopIter_events_kind samples interval menv penv intr insertOk
        (List.range samples) (init_db db) ev hev)

/-- C10: whatever the oracles do, no run ever emits the failed-ping
report — `show_failed_pings` is commented out in `main`, so it is
unreachable from the entry point — every recent-entries report a run
emits uses the fixed limit 5, and the default uninterrupted run does emit
that single limit-5 report. -/
theorem C10_reports (samples interval : Nat) (menv : Nat → Metrics)
    (penv : Nat → ProbeOutcome) (intr : Option IntrPoint) (insertOk : Nat → Bool)
    (db : DB) :
    (∀ rows, Event.reportFailed rows
        ∉ (entry_point samples interval menv penv intr insertOk db).2.1) ∧
    (∀ k rows, Event.reportRecent k rows
        ∈ (entry_point samples interval menv penv intr insertOk db).2.1 → k = 5) ∧
    Event.reportRecent 5
        (show_last_logs (entry_point samples interval menv penv none ok1 db).1 5)
      ∈ (entry_point samples interval menv penv none ok1 db).2.1 := by
  refine ⟨?_, ?_, ?_⟩
  · intro rows hmem
    rcases entry_point_events samples interval menv penv intr insertOk db _ hmem with
      h | h | h
    · simp [loopEvent] at h
    · exact absurd h (by simp)
    · exact absurd h (by simp)
  · intro k rows hmem
    rcases entry_point_events samples interval menv penv intr insertOk db _ hmem with
      h | h | h
    · simp [loopEvent] at h
    · exact absurd h (by simp)
    · exact (Event.reportRecent.injEq _ _ _ _).mp h |>.1
  · have hdb := entry_point_db samples interval menv penv none ok1 db
    rw [hdb]
    simp [entry_point, python_main, loopIter_normal]

/-- C10 witness: on the default one-sample run the emitted recent-report
limit is 5, and no failed-ping report appears. -/
theorem C10_witness :
    (5 : Int) = 5 ∧
    (∀ rows, Event.reportFailed rows
        ∉ (entry_point 1 0 cmenv cpenv none ok1 emptyDB).2.1) :=
  ⟨(C10_reports 1 0 cmenv cpenv none ok1 emptyDB).2.1 5 _
      (C10_reports 1 0 cmenv cpenv none ok1 emptyDB).2.2,
   (C10_reports 1 0 cmenv cpenv none ok1 emptyDB).1⟩
